import Mathlib

/-!
Verification of the `llm-regression-tester` auxiliary scripts.

This file gives a shallow embedding of the two Python scripts of the
repository:

  * `pre_publish_checklist.py` — five validation checks over a working
    directory plus an orchestrating `main` that runs them in a fixed order
    and returns an exit code;
  * `test_import.py` — an import smoke test that prints the package version
    on success and exits non-zero on failure.

The file tree the checklist reads is modelled as an association list from
path to file contents.  The three regular expressions that the script uses
(`version\s*=\s*"([^"]+)"`, `__version__\s*=\s*"([^"]+)"` and
`dependencies\s*=\s*\[(.*?)\]` with DOTALL) are embedded as deterministic
leftmost-match search functions over lists of characters: each pattern is
simple enough that greedy or non-greedy matching at a given start position
is a straight computation, and `re.search` behaviour is the leftmost start
position at which the pattern matches.  Lowercasing is modelled with
`Char.toLower`, which agrees with Python `str.lower` on ASCII text (the
needles that matter — field names, section keywords, "openai" — are ASCII).
-/

/-- A file tree: an association list from path to file contents.
`Path.exists` in the script is membership, reading a file is lookup. -/
structure FS where
  files : List (String × String)

/-- Reading a file: the contents of the first entry with the given path. -/
def FS.read (fs : FS) (p : String) : Option String :=
  (fs.files.find? (fun e => e.1 = p)).map (fun e => e.2)

/-- `Path(p).exists()`. -/
def FS.pathExists (fs : FS) (p : String) : Bool :=
  (FS.read fs p).isSome

/-- Python `\s` on ASCII: space, tab, newline, carriage return, vertical
tab, form feed. -/
def isPySpace (c : Char) : Bool :=
  c = ' ' || c = '\t' || c = '\n' || c = '\r' || c = '\x0b' || c = '\x0c'

/-- Match a literal string at the head of `cs`; on success return the rest. -/
def litMatch : List Char → List Char → Option (List Char)
  | [], cs => some cs
  | _ :: _, [] => none
  | l :: ls, c :: cs => if l = c then litMatch ls cs else none

/-- Python `needle in hay` (substring containment) on character lists: the
needle matches at the current position or somewhere in the tail. -/
def containsSub : List Char → List Char → Bool
  | needle, [] => (litMatch needle []).isSome
  | needle, c :: rest =>
    match litMatch needle (c :: rest) with
    | some _ => true
    | none => containsSub needle rest

/-- Python `str.lower()` restricted to ASCII case mapping. -/
def lowerChars (cs : List Char) : List Char :=
  cs.map Char.toLower

/-- Try to match `LIT\s*=\s*"([^"]+)"` at the start of `cs`, returning the
capture group.  The greedy `\s*` runs are deterministic because the next
pattern characters (`=` and `"`) are not whitespace, and the greedy
`([^"]+)` is deterministic because it excludes the closing `"`. -/
def matchAssignAt (lit : List Char) (cs : List Char) : Option String :=
  match litMatch lit cs with
  | none => none
  | some cs1 =>
    match litMatch ['='] (cs1.dropWhile isPySpace) with
    | none => none
    | some cs2 =>
      match litMatch ['"'] (cs2.dropWhile isPySpace) with
      | none => none
      | some rest =>
        let tok := rest.takeWhile (fun c => c ≠ '"')
        if tok.isEmpty then none
        else
          match litMatch ['"'] (rest.dropWhile (fun c => c ≠ '"')) with
          | some _ => some (String.mk tok)
          | none => none

/-- Try to match `dependencies\s*=\s*\[(.*?)\]` (DOTALL) at the start of
`cs`.  The non-greedy `(.*?)` followed by `\]` captures exactly the text up
to the first `]` after the opening bracket, and fails when no `]` follows. -/
def matchDepsAt (cs : List Char) : Option String :=
  match litMatch "dependencies".data cs with
  | none => none
  | some cs1 =>
    match litMatch ['='] (cs1.dropWhile isPySpace) with
    | none => none
    | some cs2 =>
      match litMatch ['['] (cs2.dropWhile isPySpace) with
      | none => none
      | some rest =>
        if ']' ∈ rest then some (String.mk (rest.takeWhile (fun c => c ≠ ']')))
        else none

/-- `re.search` semantics: try the matcher at each start position from the
left, returning the first success. -/
def searchFrom (m : List Char → Option String) : List Char → Option String
  | [] => m []
  | c :: rest =>
    match m (c :: rest) with
    | some v => some v
    | none => searchFrom m rest

/-- `re.search(rLIT\s*=\s*"([^"]+)", content)` returning group 1. -/
def searchAssign (lit : List Char) (cs : List Char) : Option String :=
  searchFrom (matchAssignAt lit) cs

/-- `re.search(rdependencies\s*=\s*\[(.*?)\], content, re.DOTALL)`
returning group 1. -/
def searchDeps (cs : List Char) : Option String :=
  searchFrom matchDepsAt cs

/-- Outcome of one check together with the values its failure (or success)
message names: the result of a check function plus the data interpolated
into the line it prints. -/
structure CheckResult where
  passed : Bool
  diag : List String
deriving DecidableEq, Repr

def pyprojectPath : String := "pyproject.toml"

def versionFilePath : String := "src/llm_regression_tester/_version.py"

/-- `check_version_consistency`: extract the version token from
`pyproject.toml` and from `_version.py`; fail when a file or token is
missing or the tokens differ (naming both), succeed with the token
otherwise. -/
def check_version_consistency (fs : FS) : CheckResult :=
  match FS.read fs pyprojectPath with
  | none => ⟨false, []⟩
  | some content =>
    match searchAssign "version".data content.data with
    | none => ⟨false, []⟩
    | some pyproject_version =>
      match FS.read fs versionFilePath with
      | none => ⟨false, []⟩
      | some content2 =>
        match searchAssign "__version__".data content2.data with
        | none => ⟨false, []⟩
        | some version_py_version =>
          if pyproject_version ≠ version_py_version then
            ⟨false, [pyproject_version, version_py_version]⟩
          else ⟨true, [pyproject_version]⟩

/-- The fixed list of paths `check_required_files` verifies. -/
def required_files : List String :=
  ["README.md",
   "LICENSE",
   "pyproject.toml",
   "src/llm_regression_tester/__init__.py",
   "src/llm_regression_tester/llm_regression_tester.py",
   "src/llm_regression_tester/_version.py",
   "tests/test_basic.py"]

/-- The `missing_files` list the source accumulates: the required paths, in
order, that do not exist. -/
def missing_files (fs : FS) : List String :=
  required_files.filter (fun p => !(FS.pathExists fs p))

/-- `check_required_files`: fail printing the missing paths when any
required path is absent, succeed otherwise. -/
def check_required_files (fs : FS) : CheckResult :=
  if missing_files fs ≠ [] then ⟨false, missing_files fs⟩
  else ⟨true, []⟩

/-- The fixed list of metadata fields `check_package_metadata` looks for. -/
def required_fields : List String :=
  ["name", "version", "description", "authors", "license",
   "requires-python", "dependencies"]

/-- The membership test of `check_package_metadata`: the field counts as
present when `field =` (with a space) or `field=` occurs as a raw substring
anywhere in the document. -/
def fieldPresent (content : String) (field : String) : Bool :=
  containsSub (field ++ " =").data content.data
    || containsSub (field ++ "=").data content.data

/-- The `missing_fields` list of `check_package_metadata`. -/
def missing_metadata_fields (content : String) : List String :=
  required_fields.filter (fun f => !(fieldPresent content f))

/-- `check_package_metadata`: fail naming the missing fields when any
required field is absent from `pyproject.toml`, succeed otherwise. -/
def check_package_metadata (fs : FS) : CheckResult :=
  match FS.read fs pyprojectPath with
  | none => ⟨false, []⟩
  | some content =>
    if missing_metadata_fields content ≠ [] then
      ⟨false, missing_metadata_fields content⟩
    else ⟨true, []⟩

/-- The fixed list of keyword sections `check_readme` looks for. -/
def required_sections : List String := ["installation", "usage", "example"]

/-- The `missing_sections` list of `check_readme`, computed over the
lowercased readme text. -/
def missing_sections (raw : String) : List String :=
  required_sections.filter (fun s => !(containsSub s.data (lowerChars raw.data)))

/-- `check_readme`: lowercase the readme and fail naming the missing
keyword sections, succeed when all are present. -/
def check_readme (fs : FS) : CheckResult :=
  match FS.read fs "README.md" with
  | none => ⟨false, []⟩
  | some raw =>
    if missing_sections raw ≠ [] then ⟨false, missing_sections raw⟩
    else ⟨true, []⟩

/-- `check_dependencies`: extract the contents of the first
`dependencies = [...]` array; fail when `openai` occurs in its lowercased
contents; succeed otherwise, in particular when no array is matched. -/
def check_dependencies (fs : FS) : CheckResult :=
  match FS.read fs pyprojectPath with
  | none => ⟨false, []⟩
  | some content =>
    match searchDeps content.data with
    | none => ⟨true, []⟩
    | some core_deps =>
      if containsSub "openai".data (lowerChars core_deps.data) then ⟨false, []⟩
      else ⟨true, []⟩

namespace Checklist

/-- What one entry of the `checks` table can do when called inside `main`'s
`try`: return a boolean, or raise an exception that the `except` clause
catches. -/
inductive CheckOutcome where
  | ok (result : Bool)
  | exn
deriving DecidableEq, Repr

/-- The recorded result of one check: the returned boolean, or `false` when
the check raised (the `except` branch appends `(check_name, False)`). -/
def runCheck : CheckOutcome → Bool
  | CheckOutcome.ok result => result
  | CheckOutcome.exn => false

/-- One outcome per entry of `main`'s fixed `checks` table. -/
structure Outcomes where
  versionConsistency : CheckOutcome
  requiredFiles : CheckOutcome
  packageMetadata : CheckOutcome
  readmeContent : CheckOutcome
  dependencies : CheckOutcome

/-- The fixed ordered `checks` table of `main`. -/
def checklist (o : Outcomes) : List (String × CheckOutcome) :=
  [("Version Consistency", o.versionConsistency),
   ("Required Files", o.requiredFiles),
   ("Package Metadata", o.packageMetadata),
   ("README Content", o.readmeContent),
   ("Dependencies", o.dependencies)]

/-- One iteration of `main`'s loop: the state is `(all_passed, results)`;
a returned `False` clears `all_passed`, a raised exception clears it and
records `(check_name, False)`. -/
def mainStep (acc : Bool × List (String × Bool)) (c : String × CheckOutcome) :
    Bool × List (String × Bool) :=
  match c.2 with
  | CheckOutcome.ok result => (acc.1 && result, acc.2 ++ [(c.1, result)])
  | CheckOutcome.exn => (false, acc.2 ++ [(c.1, false)])

/-- `main`'s loop over the checks table, starting from
`all_passed = True`, `results = []`. -/
def mainRun (o : Outcomes) : Bool × List (String × Bool) :=
  (checklist o).foldl mainStep (true, [])

/-- `main`'s return value: `0` when `all_passed`, `1` otherwise. -/
def main (o : Outcomes) : Nat :=
  if (mainRun o).1 then 0 else 1

end Checklist

/-- What loading `llm_regression_tester` can do in `test_import.py`:
succeed with a version string, raise an `ImportError` with a message, or
raise any other exception with a message. -/
inductive ImportOutcome where
  | success (version : String)
  | importError (msg : String)
  | otherError (msg : String)
deriving DecidableEq, Repr

/-- The observable behaviour of a run of `test_import.py`: its printed
lines and its process exit status. -/
structure RunResult where
  output : List String
  exitCode : Nat
deriving DecidableEq, Repr

/-- `test_import.py`: on success print the version and exit `0`; on
`ImportError` the `except` clause prints the message and calls
`sys.exit(1)`; on any other exception the interpreter prints a traceback
ending with the exception message and terminates with status `1` (the
script installs no other handler). -/
def test_import (o : ImportOutcome) : RunResult :=
  match o with
  | ImportOutcome.success v =>
    ⟨["✅ Import successful!",
      "📦 Package version: " ++ v,
      "🎉 Ready to use LLMRegressionTester!"], 0⟩
  | ImportOutcome.importError msg =>
    ⟨["❌ Import failed: " ++ msg], 1⟩
  | ImportOutcome.otherError msg =>
    ⟨["Traceback (most recent call last):", msg], 1⟩

/-! ## Helper lemmas -/

namespace Checklist

/-- One loop iteration records `(name, runCheck outcome)` and conjoins the
recorded boolean into `all_passed`. -/
lemma mainStep_eq (acc : Bool × List (String × Bool)) (c : String × CheckOutcome) :
    mainStep acc c = (acc.1 && runCheck c.2, acc.2 ++ [(c.1, runCheck c.2)]) := by
  rcases c with ⟨n, oc⟩
  cases oc <;> simp [mainStep, runCheck]

/-- Closed form of `main`'s loop: `all_passed` is the conjunction of the
recorded results and `results` records every check in order. -/
lemma foldl_mainStep (l : List (String × CheckOutcome)) :
    ∀ (p : Bool) (res : List (String × Bool)),
      l.foldl mainStep (p, res) =
        (p && l.all (fun c => runCheck c.2),
         res ++ l.map (fun c => (c.1, runCheck c.2))) := by
  induction l with
  | nil => intro p res; simp
  | cons c t ih =>
    intro p res
    rw [List.foldl_cons, mainStep_eq, ih]
    simp [Bool.and_assoc]

end Checklist

/-- `litMatch l l ++ t` consumes exactly the literal. -/
lemma litMatch_append (l t : List Char) : litMatch l (l ++ t) = some t := by
  induction l with
  | nil => rfl
  | cons c cs ih => simp [litMatch, ih]

/-- A successful literal match returns a suffix of the input. -/
lemma litMatch_suffix : ∀ (l cs cs1 : List Char), litMatch l cs = some cs1 → cs1 <:+ cs := by
  intro l
  induction l with
  | nil =>
    intro cs cs1 h
    simp [litMatch] at h
    exact h ▸ List.suffix_rfl
  | cons c cs0 ih =>
    intro cs cs1 h
    cases cs with
    | nil => simp [litMatch] at h
    | cons d rest =>
      rw [litMatch] at h
      split at h
      · exact (ih rest cs1 h).trans (List.suffix_cons d rest)
      · exact absurd h (by simp)

/-- A successful direct match makes the containment test true. -/
lemma containsSub_of_litMatch {l hay r : List Char} (h : litMatch l hay = some r) :
    containsSub l hay = true := by
  cases hay with
  | nil => simp [containsSub, h]
  | cons c rest => simp [containsSub, h]

/-- Containment is preserved by extending the haystack on the left. -/
lemma containsSub_cons {l : List Char} (c : Char) {rest : List Char}
    (h : containsSub l rest = true) : containsSub l (c :: rest) = true := by
  rw [containsSub]
  cases hm : litMatch l (c :: rest) with
  | some _ => rfl
  | none => simpa using h

/-- A needle is contained in any haystack that ends with it. -/
lemma containsSub_append_left (pre l : List Char) : containsSub l (pre ++ l) = true := by
  induction pre with
  | nil => exact containsSub_of_litMatch (by simpa using litMatch_append l [])
  | cons c cs ih => simpa using containsSub_cons c ih

/-- A needle is contained in itself. -/
lemma containsSub_refl (l : List Char) : containsSub l l = true := by
  simpa using containsSub_append_left [] l

/-- When the document has no `]` at all, the dependencies pattern cannot
match at this position. -/
lemma matchDepsAt_bracket_free (cs : List Char) (h : ']' ∉ cs) :
    matchDepsAt cs = none := by
  unfold matchDepsAt
  split
  · rfl
  · rename_i cs1 h1
    split
    · rfl
    · rename_i cs2 h2
      split
      · rfl
      · rename_i rest h3
        have m1 : ']' ∉ cs1 := fun hm => h ((litMatch_suffix _ cs cs1 h1).mem hm)
        have m2 : ']' ∉ cs2 := fun hm =>
          m1 (((litMatch_suffix _ _ _ h2).trans (List.dropWhile_suffix _)).mem hm)
        have m3 : ']' ∉ rest := fun hm =>
          m2 (((litMatch_suffix _ _ _ h3).trans (List.dropWhile_suffix _)).mem hm)
        simp [m3]

/-- When the pattern does match, the capture group stops before the first
`]`: it never contains one. -/
lemma matchDepsAt_capture_bracket_free (cs : List Char) (s : String)
    (h : matchDepsAt cs = some s) : ']' ∉ s.data := by
  unfold matchDepsAt at h
  split at h
  · exact absurd h (by simp)
  · split at h
    · exact absurd h (by simp)
    · split at h
      · exact absurd h (by simp)
      · split at h
        · cases Option.some.inj h
          intro hm
          have := List.mem_takeWhile_imp hm
          simp at this
        · exact absurd h (by simp)

/-- A leftmost search only succeeds when the matcher succeeds on some
suffix of the input. -/
lemma searchFrom_some (m : List Char → Option String) :
    ∀ (cs : List Char) (s : String), searchFrom m cs = some s →
      ∃ cs1, cs1 <:+ cs ∧ m cs1 = some s := by
  intro cs
  induction cs with
  | nil => intro s h; exact ⟨[], List.suffix_rfl, h⟩
  | cons c rest ih =>
    intro s h
    rw [searchFrom] at h
    cases hm : m (c :: rest) with
    | some v =>
      rw [hm] at h
      exact ⟨c :: rest, List.suffix_rfl, hm.trans h⟩
    | none =>
      rw [hm] at h
      obtain ⟨cs1, hsub, hmm⟩ := ih s h
      exact ⟨cs1, hsub.trans (List.suffix_cons c rest), hmm⟩

/-- Over a document with no `]`, the dependencies search finds nothing. -/
lemma searchDeps_bracket_free : ∀ (cs : List Char), ']' ∉ cs → searchDeps cs = none := by
  intro cs
  induction cs with
  | nil => intro _; exact matchDepsAt_bracket_free [] (by simp)
  | cons c rest ih =>
    intro h
    rw [searchDeps, searchFrom, matchDepsAt_bracket_free _ h]
    exact ih (fun hm => h (List.mem_cons_of_mem c hm))

/-- The capture returned by the dependencies search never contains `]`. -/
lemma searchDeps_capture_bracket_free (cs : List Char) (s : String)
    (h : searchDeps cs = some s) : ']' ∉ s.data := by
  obtain ⟨cs1, _, hm⟩ := searchFrom_some matchDepsAt cs s h
  exact matchDepsAt_capture_bracket_free cs1 s hm

/-! ## Claims -/

/-- C1: for every assignment of pass/fail outcomes to the five checks,
`main` returns exit code 0 if and only if all five checks passed, and
returns 1 in every other case (a raised exception counting as a failed
check via `runCheck`). -/
theorem claim_C1_exit_code (o : Checklist.Outcomes) :
    (Checklist.main o = 0 ↔
      (Checklist.runCheck o.versionConsistency = true ∧
       Checklist.runCheck o.requiredFiles = true ∧
       Checklist.runCheck o.packageMetadata = true ∧
       Checklist.runCheck o.readmeContent = true ∧
       Checklist.runCheck o.dependencies = true)) ∧
    (Checklist.main o = 0 ∨ Checklist.main o = 1) := by
  have h1 : (Checklist.mainRun o).1 =
      (Checklist.runCheck o.versionConsistency &&
       (Checklist.runCheck o.requiredFiles &&
        (Checklist.runCheck o.packageMetadata &&
         (Checklist.runCheck o.readmeContent &&
          Checklist.runCheck o.dependencies)))) := by
    rw [Checklist.mainRun, Checklist.foldl_mainStep]
    simp [Checklist.checklist]
  rw [Checklist.main, h1]
  cases Checklist.runCheck o.versionConsistency <;>
    cases Checklist.runCheck o.requiredFiles <;>
    cases Checklist.runCheck o.packageMetadata <;>
    cases Checklist.runCheck o.readmeContent <;>
    cases Checklist.runCheck o.dependencies <;> simp

/-- C2: every run processes all five checks in the fixed order (Version
Consistency, Required Files, Package Metadata, README Content,
Dependencies) regardless of earlier failures; the summary lists each
check with its own recorded result, and a check that raised is recorded
as a failure without affecting the entries of the later checks. -/
theorem claim_C2_all_checks_run (o : Checklist.Outcomes) :
    (Checklist.mainRun o).2 =
      [("Version Consistency", Checklist.runCheck o.versionConsistency),
       ("Required Files", Checklist.runCheck o.requiredFiles),
       ("Package Metadata", Checklist.runCheck o.packageMetadata),
       ("README Content", Checklist.runCheck o.readmeContent),
       ("Dependencies", Checklist.runCheck o.dependencies)] ∧
    Checklist.runCheck Checklist.CheckOutcome.exn = false := by
  refine ⟨?_, rfl⟩
  rw [Checklist.mainRun, Checklist.foldl_mainStep]
  simp [Checklist.checklist]

/-- C3: whenever loading the package fails — by `ImportError` (caught and
reported by the script) or by any other exception (left to the
interpreter) — the run prints the raised message and exits non-zero;
when the package loads cleanly the run prints the version string and
exits zero. -/
theorem claim_C3_import_verifier (o : ImportOutcome) :
    (∀ v, o = ImportOutcome.success v →
      (test_import o).exitCode = 0 ∧
      ("📦 Package version: " ++ v) ∈ (test_import o).output) ∧
    (∀ msg, (o = ImportOutcome.importError msg ∨ o = ImportOutcome.otherError msg) →
      (test_import o).exitCode ≠ 0 ∧
      ∃ line ∈ (test_import o).output, containsSub msg.data line.data = true) := by
  constructor
  · rintro v rfl
    exact ⟨rfl, by simp [test_import]⟩
  · rintro msg (rfl | rfl)
    · refine ⟨by simp [test_import], "❌ Import failed: " ++ msg, by simp [test_import], ?_⟩
      have hd : ("❌ Import failed: " ++ msg).data = "❌ Import failed: ".data ++ msg.data := by
        cases msg; rfl
      rw [hd]
      exact containsSub_append_left _ _
    · exact ⟨by simp [test_import], msg, by simp [test_import], containsSub_refl _⟩

/-- C3 witness: a clean load exits 0; a load failing with `ImportError`
exits non-zero. -/
theorem claim_C3_witness :
    (test_import (ImportOutcome.success "0.1.0")).exitCode = 0 ∧
    (test_import (ImportOutcome.importError "boom")).exitCode ≠ 0 ∧
    (test_import (ImportOutcome.otherError "bad state")).exitCode ≠ 0 := by
  refine ⟨((claim_C3_import_verifier (ImportOutcome.success "0.1.0")).1 "0.1.0" rfl).1,
    ((claim_C3_import_verifier (ImportOutcome.importError "boom")).2 "boom" (Or.inl rfl)).1,
    ((claim_C3_import_verifier (ImportOutcome.otherError "bad state")).2 "bad state" (Or.inr rfl)).1⟩

/-- The version token a file yields under the script's pattern match:
`None` when the file is missing or the pattern finds nothing. -/
def versionToken (fs : FS) (path : String) (lit : String) : Option String :=
  match FS.read fs path with
  | none => none
  | some content => searchAssign lit.data content.data

/-- C4: the version-consistency check succeeds exactly when both files
yield a version token and the two tokens are textually identical; on a
mismatch it fails naming both values, and on agreement it succeeds with
the matched value. -/
theorem claim_C4_version_consistency (fs : FS) :
    ((check_version_consistency fs).passed = true ↔
      ∃ v, versionToken fs pyprojectPath "version" = some v ∧
           versionToken fs versionFilePath "__version__" = some v) ∧
    (∀ v w, versionToken fs pyprojectPath "version" = some v →
      versionToken fs versionFilePath "__version__" = some w → v ≠ w →
      (check_version_consistency fs).passed = false ∧
      (check_version_consistency fs).diag = [v, w]) ∧
    (∀ v, versionToken fs pyprojectPath "version" = some v →
      versionToken fs versionFilePath "__version__" = some v →
      (check_version_consistency fs).passed = true ∧
      (check_version_consistency fs).diag = [v]) := by
  unfold check_version_consistency versionToken
  cases h1 : FS.read fs pyprojectPath with
  | none => simp [h1]
  | some content =>
    cases h2 : searchAssign ['v','e','r','s','i','o','n'] content.data with
    | none => simp [h1, h2]
    | some pv =>
      cases h3 : FS.read fs versionFilePath with
      | none => simp [h1, h2, h3]
      | some content2 =>
        cases h4 : searchAssign ['_','_','v','e','r','s','i','o','n','_','_'] content2.data with
        | none => simp [h1, h2, h3, h4]
        | some vv =>
          by_cases hne : pv = vv
          · subst hne
            simp [h1, h2, h3, h4]
          · simp [h1, h2, h3, h4, hne]
            exact fun h => hne h.symm

/-- C4 witness: matching tokens pass with the value; differing tokens fail
naming both. -/
theorem claim_C4_witness :
    (check_version_consistency
      ⟨[("pyproject.toml", "version = \"0.1.0\""),
        ("src/llm_regression_tester/_version.py", "__version__ = \"0.1.0\"")]⟩).passed = true ∧
    (check_version_consistency
      ⟨[("pyproject.toml", "version = \"0.1.0\""),
        ("src/llm_regression_tester/_version.py", "__version__ = \"0.2.0\"")]⟩).diag
      = ["0.1.0", "0.2.0"] := by
  refine ⟨((claim_C4_version_consistency _).2.2 "0.1.0" (by decide) (by decide)).1,
    ((claim_C4_version_consistency _).2.1 "0.1.0" "0.2.0" (by decide) (by decide) (by decide)).2⟩

/-- C5: on a readable metadata document, the dependency check fails when
the matched `dependencies = [...]` contents contain `openai` after
lowercasing, succeeds when they do not, and succeeds when no array is
matched at all. -/
theorem claim_C5_dependency_check (fs : FS) (content : String)
    (h : FS.read fs pyprojectPath = some content) :
    (∀ deps, searchDeps content.data = some deps →
      containsSub "openai".data (lowerChars deps.data) = true →
      (check_dependencies fs).passed = false) ∧
    (∀ deps, searchDeps content.data = some deps →
      containsSub "openai".data (lowerChars deps.data) = false →
      (check_dependencies fs).passed = true) ∧
    (searchDeps content.data = none → (check_dependencies fs).passed = true) := by
  unfold check_dependencies
  cases hs : searchDeps content.data with
  | none => simp [h, hs]
  | some deps =>
    refine ⟨?_, ?_, by simp [hs]⟩
    · rintro d hd hc
      cases Option.some.inj hd
      have hc2 : containsSub ['o','p','e','n','a','i'] (lowerChars deps.data) = true := hc
      simp [h, hs, hc2]
    · rintro d hd hc
      cases Option.some.inj hd
      have hc2 : containsSub ['o','p','e','n','a','i'] (lowerChars deps.data) = false := hc
      simp [h, hs, hc2]

/-- C5 witness: `OpenAI` inside the array fails the check; an array
without it passes; a document with no array passes. -/
theorem claim_C5_witness :
    (check_dependencies ⟨[("pyproject.toml", "dependencies = [\"OpenAI\"]")]⟩).passed = false ∧
    (check_dependencies ⟨[("pyproject.toml", "dependencies = [\"requests\"]")]⟩).passed = true ∧
    (check_dependencies ⟨[("pyproject.toml", "name = \"x\"")]⟩).passed = true := by
  refine ⟨(claim_C5_dependency_check _ "dependencies = [\"OpenAI\"]" (by decide)).1
      "\"OpenAI\"" (by decide) (by decide),
    (claim_C5_dependency_check _ "dependencies = [\"requests\"]" (by decide)).2.1
      "\"requests\"" (by decide) (by decide),
    (claim_C5_dependency_check _ "name = \"x\"" (by decide)).2.2 (by decide)⟩

/-- The required-files check passes exactly when nothing is missing. -/
lemma missing_files_nil (fs : FS) :
    missing_files fs = [] ↔ ∀ p ∈ required_files, FS.pathExists fs p = true := by
  simp [missing_files, List.filter_eq_nil_iff]

/-- C6: the required-files list has seven paths; the check succeeds exactly
when all of them exist, and on failure the printed list contains exactly
the required paths that do not exist. -/
theorem claim_C6_required_files (fs : FS) :
    required_files.length = 7 ∧
    ((check_required_files fs).passed = true ↔
      ∀ p ∈ required_files, FS.pathExists fs p = true) ∧
    ((check_required_files fs).passed = false →
      ∀ p, p ∈ (check_required_files fs).diag ↔
        (p ∈ required_files ∧ FS.pathExists fs p = false)) := by
  refine ⟨rfl, ?_, ?_⟩
  · unfold check_required_files
    by_cases hm : missing_files fs = []
    · simp [hm]
      exact (missing_files_nil fs).mp hm
    · have hnot : ¬∀ p ∈ required_files, FS.pathExists fs p = true :=
        fun hall => hm ((missing_files_nil fs).mpr hall)
      simp [hm, hnot]
  · intro hf p
    unfold check_required_files at hf ⊢
    by_cases hm : missing_files fs = []
    · simp [hm] at hf
    · simp only [hm, ne_eq, not_false_eq_true, if_true]
      simp [missing_files, List.mem_filter]

/-- C6 witness: with all seven paths present the check passes; with a
subset missing, the printed list is exactly the missing subset. -/
theorem claim_C6_witness :
    (check_required_files
      ⟨[("README.md", ""), ("LICENSE", ""), ("pyproject.toml", ""),
        ("src/llm_regression_tester/__init__.py", ""),
        ("src/llm_regression_tester/llm_regression_tester.py", ""),
        ("src/llm_regression_tester/_version.py", ""),
        ("tests/test_basic.py", "")]⟩).passed = true ∧
    ("LICENSE" ∈ (check_required_files ⟨[("README.md", "")]⟩).diag ∧
     "README.md" ∉ (check_required_files ⟨[("README.md", "")]⟩).diag) := by
  refine ⟨(claim_C6_required_files _).2.1.mpr (by decide), ?_, ?_⟩
  · exact ((claim_C6_required_files _).2.2 (by decide) "LICENSE").mpr (by decide)
  · intro hmem
    have := ((claim_C6_required_files _).2.2 (by decide) "README.md").mp hmem
    exact absurd this.2 (by decide)

/-- A filter over a duplicate-free list collapses to a singleton when
exactly one element satisfies the predicate. -/
lemma filter_eq_singleton {α : Type} [DecidableEq α] (p : α → Bool) :
    ∀ (l : List α) (f : α), l.Nodup → f ∈ l → p f = true →
      (∀ g ∈ l, g ≠ f → p g = false) → l.filter p = [f] := by
  intro l
  induction l with
  | nil => intro f _ hf _ _; simp at hf
  | cons a t ih =>
    intro f hnd hmem hpf hothers
    rcases List.mem_cons.mp hmem with rfl | hmt
    · have ht : t.filter p = [] := List.filter_eq_nil_iff.mpr (fun g hg => by
        have hne : g ≠ f := fun he => (List.nodup_cons.mp hnd).1 (he ▸ hg)
        simp [hothers g (List.mem_cons_of_mem _ hg) hne])
      simp [List.filter_cons, hpf, ht]
    · have hne : a ≠ f := fun he => (List.nodup_cons.mp hnd).1 (he ▸ hmt)
      have ha : (a :: t).filter p = t.filter p := by
        simp [List.filter_cons, hothers a (List.mem_cons_self a t) hne]
      rw [ha]
      exact ih f (List.nodup_cons.mp hnd).2 hmt hpf
        (fun g hg hgne => hothers g (List.mem_cons_of_mem _ hg) hgne)

/-- The metadata check finds nothing missing exactly when every required
field is present. -/
lemma missing_metadata_fields_nil (content : String) :
    missing_metadata_fields content = [] ↔
      ∀ f ∈ required_fields, fieldPresent content f = true := by
  simp [missing_metadata_fields, List.filter_eq_nil_iff]

/-- C7: with seven required fields, the metadata check succeeds exactly
when each field name appears in the document in the spaced or unspaced
spelling; when exactly one field is missing it fails naming only that
field. -/
theorem claim_C7_package_metadata (fs : FS) (content : String)
    (h : FS.read fs pyprojectPath = some content) :
    required_fields.length = 7 ∧
    ((check_package_metadata fs).passed = true ↔
      ∀ f ∈ required_fields, fieldPresent content f = true) ∧
    (∀ f ∈ required_fields,
      fieldPresent content f = false →
      (∀ g ∈ required_fields, g ≠ f → fieldPresent content g = true) →
      (check_package_metadata fs).passed = false ∧
      (check_package_metadata fs).diag = [f]) := by
  refine ⟨rfl, ?_, ?_⟩
  · unfold check_package_metadata
    by_cases hm : missing_metadata_fields content = []
    · simp [h, hm]
      exact (missing_metadata_fields_nil content).mp hm
    · have hnot : ¬∀ f ∈ required_fields, fieldPresent content f = true :=
        fun hall => hm ((missing_metadata_fields_nil content).mpr hall)
      simp [h, hm, hnot]
  · intro f hf hpf hothers
    have hsing : missing_metadata_fields content = [f] := by
      refine filter_eq_singleton _ required_fields f (by decide) hf (by simp [hpf]) ?_
      intro g hg hne
      simp [hothers g hg hne]
    unfold check_package_metadata
    simp [h, hsing]

/-- An example metadata document with all seven required fields. -/
def pyprojectFull : String :=
  "name = \"x\"\nversion = \"1\"\ndescription = \"d\"\nauthors = [\"a\"]\nlicense = \"MIT\"\nrequires-python = \">=3.8\"\ndependencies = []\n"

/-- The same document with the `license` line removed. -/
def pyprojectNoLicense : String :=
  "name = \"x\"\nversion = \"1\"\ndescription = \"d\"\nauthors = [\"a\"]\nrequires-python = \">=3.8\"\ndependencies = []\n"

/-- C7 witness: a document with all seven fields passes; one missing only
`license` fails naming exactly `license`. -/
theorem claim_C7_witness :
    (check_package_metadata ⟨[("pyproject.toml", pyprojectFull)]⟩).passed = true ∧
    (check_package_metadata ⟨[("pyproject.toml", pyprojectNoLicense)]⟩).diag = ["license"] := by
  refine ⟨(claim_C7_package_metadata ⟨[("pyproject.toml", pyprojectFull)]⟩
      pyprojectFull rfl).2.1.mpr (by decide),
    ((claim_C7_package_metadata ⟨[("pyproject.toml", pyprojectNoLicense)]⟩
      pyprojectNoLicense rfl).2.2 "license" (by decide) (by decide) (by decide)).2⟩

/-- The readme check finds nothing missing exactly when every keyword
occurs in the lowercased text. -/
lemma missing_sections_nil (raw : String) :
    missing_sections raw = [] ↔
      ∀ s ∈ required_sections, containsSub s.data (lowerChars raw.data) = true := by
  simp [missing_sections, List.filter_eq_nil_iff]

/-- C8: the readme check searches for the keywords in the lowercased text
(so matching is case-insensitive and position-independent), and a readme
containing `installation` and `usage` but lacking `example` fails naming
only `example`. -/
theorem claim_C8_readme (fs : FS) (raw : String)
    (h : FS.read fs "README.md" = some raw) :
    required_sections = ["installation", "usage", "example"] ∧
    ((check_readme fs).passed = true ↔
      ∀ s ∈ required_sections, containsSub s.data (lowerChars raw.data) = true) ∧
    (containsSub "installation".data (lowerChars raw.data) = true →
     containsSub "usage".data (lowerChars raw.data) = true →
     containsSub "example".data (lowerChars raw.data) = false →
     (check_readme fs).passed = false ∧ (check_readme fs).diag = ["example"]) := by
  refine ⟨rfl, ?_, ?_⟩
  · unfold check_readme
    by_cases hm : missing_sections raw = []
    · simp [h, hm]
      exact (missing_sections_nil raw).mp hm
    · have hnot : ¬∀ s ∈ required_sections, containsSub s.data (lowerChars raw.data) = true :=
        fun hall => hm ((missing_sections_nil raw).mpr hall)
      simp [h, hm, hnot]
  · intro hi hu hx
    have hms : missing_sections raw = ["example"] := by
      simp [missing_sections, required_sections, List.filter_cons, hi, hu, hx]
    unfold check_readme
    simp [h, hms]

/-- An example readme with installation and usage sections but no example. -/
def readmeNoExample : String :=
  "# Tool\n## Installation\npip install it\n## Usage\nrun it\n"

/-- C8 witness: a readme with installation and usage but no example fails
naming only `example`. -/
theorem claim_C8_witness :
    (check_readme ⟨[("README.md", readmeNoExample)]⟩).passed = false ∧
    (check_readme ⟨[("README.md", readmeNoExample)]⟩).diag = ["example"] := by
  exact (claim_C8_readme ⟨[("README.md", readmeNoExample)]⟩ readmeNoExample rfl).2.2
    (by decide) (by decide) (by decide)

/-- C9: the metadata check is a raw substring test: any document in which
the field name followed by ` =` or `=` occurs anywhere — a comment, a
string value, the tail of a longer key — counts the field as present, so
the field can never appear in the missing list. -/
theorem claim_C9_raw_substring (fs : FS) (content : String) (field : String)
    (h : FS.read fs pyprojectPath = some content)
    (hf : field ∈ required_fields)
    (hocc : containsSub (field ++ " =").data content.data = true ∨
            containsSub (field ++ "=").data content.data = true) :
    field ∉ (check_package_metadata fs).diag := by
  have hp : fieldPresent content field = true := by
    unfold fieldPresent
    rcases hocc with h1 | h1
    · have h2 : containsSub (field.data ++ [' ', '=']) content.data = true := h1
      simp [h2]
    · have h2 : containsSub (field.data ++ ['=']) content.data = true := h1
      simp [h2]
  unfold check_package_metadata
  by_cases hm : missing_metadata_fields content = []
  · simp [h, hm]
  · simp only [h, hm, ne_eq, not_false_eq_true, if_true]
    simp [missing_metadata_fields, List.mem_filter, hp]

/-- C9 witness: a document defining no `version` field but mentioning
`version = 1` only inside a comment never reports `version` missing, and
a `filename = ...` line makes `name` count as present. -/
theorem claim_C9_witness :
    ("version" ∉ (check_package_metadata
      ⟨[("pyproject.toml", "# version = 1 in a comment only\n")]⟩).diag) ∧
    ("name" ∉ (check_package_metadata
      ⟨[("pyproject.toml", "filename = \"a.txt\"\n")]⟩).diag) := by
  refine ⟨claim_C9_raw_substring ⟨[("pyproject.toml", "# version = 1 in a comment only\n")]⟩
      "# version = 1 in a comment only\n" "version" rfl (by decide) (Or.inl (by decide)),
    claim_C9_raw_substring ⟨[("pyproject.toml", "filename = \"a.txt\"\n")]⟩
      "filename = \"a.txt\"\n" "name" rfl (by decide) (Or.inl (by decide))⟩

/-- C10: the non-greedy dependencies pattern inspects only the text up to
the first `]` after the opening bracket — the capture never contains `]`,
a document with no `]` yields no match at all, an `openai` occurring only
after the first `]` is not detected, and an unclosed array with `openai`
inside also passes. -/
theorem claim_C10_nongreedy_extraction :
    (∀ (cs : List Char) (s : String), searchDeps cs = some s → ']' ∉ s.data) ∧
    (∀ cs : List Char, ']' ∉ cs → searchDeps cs = none) ∧
    (check_dependencies ⟨[("pyproject.toml",
        "dependencies = [\"requests\"] extras = [\"openai\"]")]⟩).passed = true ∧
    (check_dependencies ⟨[("pyproject.toml",
        "dependencies = [\"openai\"")]⟩).passed = true := by
  exact ⟨searchDeps_capture_bracket_free, searchDeps_bracket_free, by decide, by decide⟩

/-- C10 witness: the capture stops at the first `]` on a concrete document,
and a concrete unclosed array yields no match. -/
theorem claim_C10_witness :
    (']' ∉ ("\"a\"" : String).data) ∧
    searchDeps ("dependencies = [\"openai\"" : String).data = none := by
  refine ⟨claim_C10_nongreedy_extraction.1
      ("dependencies = [\"a\"] x" : String).data "\"a\"" (by decide),
    claim_C10_nongreedy_extraction.2.1 _ (by decide)⟩
